import Mathlib

/-
Shallow embedding of the configuration bootstrap and validation logic of
minfs (file fs/config.go).

Conventions of the embedding:
  * Go strings are Lean String values.  The Go slice expression s[1:] is
    modelled as dropping one character; every path the claims touch starts
    with the one-byte character / so byte and character indexing agree.
  * The stdlib helpers the code calls (strings.Split, path.Join, path.Clean,
    json.Marshal string escaping) are modelled faithfully below.
  * External effects (os.MkdirAll, os.Stat, ioutil.ReadFile, ioutil.WriteFile,
    json.Unmarshal, os.Getenv, time.Now, url.Parse) are given as an explicit
    world value; InitMinFSConfig is a pure function of that world which also
    reports its own effects (what it wrote, whether it read, the value it
    assigned to the global MountTime).
-/

/-- Model of net/url URL restricted to the components the code reads:
Target stores the whole parsed value and inspects only its Path. -/
structure URL where
  scheme : String
  host : String
  path : String
deriving DecidableEq

/-- The Config struct of fs/config.go (field for field). -/
structure Config where
  bucket : String
  basePath : String
  cache : String
  accountID : String
  accessKey : String
  secretKey : String
  secretToken : String
  target : Option URL
  mountpoint : String
  insecure : Bool
  debug : Bool
  uid : Nat
  gid : Nat
  mode : Nat
deriving DecidableEq

/-- The Go zero value of Config, the state an option list is applied to. -/
def Config.zero : Config :=
  { bucket := "", basePath := "", cache := "", accountID := "", accessKey := ""
  , secretKey := "", secretToken := "", target := none, mountpoint := ""
  , insecure := false, debug := false, uid := 0, gid := 0, mode := 0 }

/-- The AccessConfig struct: the persisted credential record. -/
structure AccessConfig where
  version : String
  accessKey : String
  secretKey : String
  secretToken : String
deriving DecidableEq

/-- Model of strings.Split(s, sep) for the one-character separator /,
written over the character list of the string. -/
def splitOnSlashL : List Char → List (List Char)
  | [] => [[]]
  | c :: cs =>
    if c = '/' then [] :: splitOnSlashL cs
    else
      match splitOnSlashL cs with
      | [] => [[c]]
      | h :: t => (c :: h) :: t

/-- Model of strings.Join(elems, sep) for the separator /
(also the separator insertion step of path.Join). -/
def goStringsJoin : List String → String
  | [] => ""
  | [s] => s
  | s :: rest => s ++ "/" ++ goStringsJoin rest

/-- The segment stack of path.Clean: empty and dot segments are skipped,
a dotdot segment pops the last kept segment, except that on a rooted path a
dotdot at the root is dropped and on a relative path it is kept. -/
def cleanSegs (rooted : Bool) : List String → List String → List String
  | acc, [] => acc.reverse
  | acc, seg :: rest =>
    if seg = "" ∨ seg = "." then cleanSegs rooted acc rest
    else if seg = ".." then
      match acc with
      | [] => if rooted then cleanSegs rooted [] rest else cleanSegs rooted [".."] rest
      | top :: acc2 =>
        if top = ".." then cleanSegs rooted (".." :: top :: acc2) rest
        else cleanSegs rooted acc2 rest
    else cleanSegs rooted (seg :: acc) rest

/-- Model of path.Clean: the lexical simplification of a slash-separated
path (Plan 9 rules), expressed on the segment decomposition of the input. -/
def goPathClean (p : String) : String :=
  if p = "" then "."
  else if p.data.headD ' ' == '/' then
    "/" ++ goStringsJoin (cleanSegs true [] ((splitOnSlashL p.data).map String.mk))
  else if goStringsJoin (cleanSegs false [] ((splitOnSlashL p.data).map String.mk)) = "" then "."
  else goStringsJoin (cleanSegs false [] ((splitOnSlashL p.data).map String.mk))

/-- Model of path.Join(elems...): leading empty elements are skipped, the
rest are joined with / and the result is cleaned; all-empty input gives
the empty string. -/
def goPathJoin (elems : List String) : String :=
  match elems.dropWhile (fun e => e == "") with
  | [] => ""
  | e :: rest => goPathClean (goStringsJoin (e :: rest))

/-- Model of the Go slice expression s[1:] (drop the first byte; used on
paths whose first byte is the one-byte character /). -/
def strTail (s : String) : String := String.mk s.data.tail

/-- The Mountpoint option of fs/config.go. -/
def Mountpoint (mountpoint : String) (cfg : Config) : Config :=
  { cfg with mountpoint := mountpoint }

/-- The Target option of fs/config.go.  url.Parse is external, so the
option is modelled on the parse outcome: none is a parse error (the err
not-nil branch, in which the closure does nothing), some u a success.
The Go code assigns cfg.target, then, when len(u.Path) > 1, assigns
cfg.bucket = parts[0] and cfg.basePath = path.Join(parts[1:]...)
(the two inner length tests of the source are always true because
strings.Split never returns an empty slice). -/
def Target (parsed : Option URL) (cfg : Config) : Config :=
  match parsed with
  | none => cfg
  | some u =>
    if 1 < u.path.length then
      { cfg with target := some u
               , bucket := (((splitOnSlashL (strTail u.path).data).map String.mk).headD "")
               , basePath := goPathJoin (((splitOnSlashL (strTail u.path).data).map String.mk).drop 1) }
    else { cfg with target := some u }

/-- The CacheDir option of fs/config.go. -/
def CacheDir (path : String) (cfg : Config) : Config := { cfg with cache := path }

/-- The SetGID option of fs/config.go. -/
def SetGID (gid : Nat) (cfg : Config) : Config := { cfg with gid := gid }

/-- The SetUID option of fs/config.go. -/
def SetUID (uid : Nat) (cfg : Config) : Config := { cfg with uid := uid }

/-- The Insecure option of fs/config.go. -/
def Insecure (cfg : Config) : Config := { cfg with insecure := true }

/-- The Debug option of fs/config.go. -/
def Debug (cfg : Config) : Config := { cfg with debug := true }

/-- The validate method of fs/config.go: first failing check in the order
mountpoint, target, bucket; the error is reported as its message string. -/
def Config.validate (cfg : Config) : Option String :=
  if cfg.mountpoint = "" then some "Mountpoint not set"
  else if cfg.target = none then some "Target not set"
  else if cfg.bucket = "" then some "Bucket not set"
  else none

/-- Lowercase hexadecimal digit, as used by the Go JSON encoder. -/
def hexDigitChar (n : Nat) : Char :=
  if n < 10 then Char.ofNat (48 + n) else Char.ofNat (87 + n % 16)

/-- Model of the per-character escaping of encoding/json string encoding
(HTML escaping on, the json.Marshal default): quote, backslash, newline,
carriage return and tab get two-character escapes; other control characters
and the HTML characters get a u00 escape of the byte; the line and paragraph
separator runes get u2028 and u2029; everything else stands for itself. -/
def escapeJSONChar (c : Char) : String :=
  if c = '"' then "\\\""
  else if c = '\\' then "\\\\"
  else if c = '\n' then "\\n"
  else if c = '\r' then "\\r"
  else if c = '\t' then "\\t"
  else if c.toNat < 32 ∨ c = '<' ∨ c = '>' ∨ c = '&' then
    String.mk ['\\', 'u', '0', '0', hexDigitChar (c.toNat / 16), hexDigitChar (c.toNat % 16)]
  else if c = Char.ofNat 8232 then "\\u2028"
  else if c = Char.ofNat 8233 then "\\u2029"
  else String.singleton c

/-- Escape every character of a string body, as the encoder loop does. -/
def escapeData : List Char → List Char
  | [] => []
  | c :: cs => (escapeJSONChar c).data ++ escapeData cs

/-- A JSON string literal for s: quote, escaped body, quote. -/
def jsonQuote (s : String) : String :=
  String.mk ('"' :: (escapeData s.data ++ ['"']))

/-- Model of json.Marshal on AccessConfig with its field tags: the object
in declaration order version, accessKey, secretKey, secretToken.
Marshalling a struct of plain string fields cannot fail, so the dead
jerr branch of the source has no counterpart here. -/
def marshalAccessConfig (ac : AccessConfig) : String :=
  "\x7b\"version\":" ++ jsonQuote ac.version
    ++ ",\"accessKey\":" ++ jsonQuote ac.accessKey
    ++ ",\"secretKey\":" ++ jsonQuote ac.secretKey
    ++ ",\"secretToken\":" ++ jsonQuote ac.secretToken ++ "\x7d"

/-- A character the JSON encoder emits unchanged. -/
def PlainJSONChar (c : Char) : Prop :=
  32 ≤ c.toNat ∧ c ≠ '"' ∧ c ≠ '\\' ∧ c ≠ '<' ∧ c ≠ '>' ∧ c ≠ '&'
    ∧ c ≠ Char.ofNat 8232 ∧ c ≠ Char.ofNat 8233

instance (c : Char) : Decidable (PlainJSONChar c) := by
  unfold PlainJSONChar; infer_instance

/-- The three MINFS environment variables; os.Getenv gives the empty
string for an unset variable, so unset is the empty string. -/
structure Env where
  minfsAccessKey : String
  minfsSecretKey : String
  minfsSecretToken : String
deriving DecidableEq

/-- Outcome of os.Stat(globalConfigFile): success, an error for which
os.IsNotExist holds, or any other error. -/
inductive StatResult where
  | okFile : StatResult
  | notExist : StatResult
  | otherErr : String → StatResult
deriving DecidableEq

/-- The external world InitMinFSConfig runs against: the outcome of each
external call it can make, in particular the unmarshal oracle giving the
result of json.Unmarshal on any file content. -/
structure World where
  mkdirErr : Option String
  now : Nat
  stat : StatResult
  readResult : Except String String
  unmarshal : String → Except String AccessConfig
  writeErr : Option String
  env : Env

/-- What a run of InitMinFSConfig produced: the returned value or error,
the content successfully written to the credential file (none when no
successful write happened), whether ioutil.ReadFile was called, and the
value assigned to the global MountTime (none when the assignment was not
reached). -/
structure InitResult where
  result : Except String AccessConfig
  written : Option String
  didRead : Bool
  mountTime : Option Nat

/-- InitMinFSConfig of fs/config.go over the explicit world.  Mirrors the
source: MkdirAll first (failure returns), then MountTime = time.Now(),
then Stat; on IsNotExist build the record from the environment, marshal
and write it; on any other stat error return it; otherwise read the file,
unmarshal it, and override each credential field whose environment
variable is non-empty (the file is not rewritten on this path). -/
def InitMinFSConfig (w : World) : InitResult :=
  match w.mkdirErr with
  | some e => ⟨.error e, none, false, none⟩
  | none =>
    match w.stat with
    | .notExist =>
      match w.writeErr with
      | some e => ⟨.error e, none, false, some w.now⟩
      | none =>
        ⟨.ok ⟨"1", w.env.minfsAccessKey, w.env.minfsSecretKey, w.env.minfsSecretToken⟩,
          some (marshalAccessConfig
            ⟨"1", w.env.minfsAccessKey, w.env.minfsSecretKey, w.env.minfsSecretToken⟩),
          false, some w.now⟩
    | .otherErr e => ⟨.error e, none, false, some w.now⟩
    | .okFile =>
      match w.readResult with
      | .error e => ⟨.error e, none, true, some w.now⟩
      | .ok acBytes =>
        match w.unmarshal acBytes with
        | .error e => ⟨.error e, none, true, some w.now⟩
        | .ok ac0 =>
          let ac1 := if w.env.minfsAccessKey ≠ ""
            then { ac0 with accessKey := w.env.minfsAccessKey } else ac0
          let ac2 := if w.env.minfsSecretKey ≠ ""
            then { ac1 with secretKey := w.env.minfsSecretKey } else ac1
          let ac3 := if w.env.minfsSecretToken ≠ ""
            then { ac2 with secretToken := w.env.minfsSecretToken } else ac2
          ⟨.ok ac3, none, true, some w.now⟩

/-- URL used by the concrete witnesses: path with three ordinary segments. -/
def uW : URL := ⟨"http", "h", "/mybucket/a/b"⟩

/-- A fully valid Config. -/
def cfgOk : Config :=
  { Config.zero with mountpoint := "/mnt/x", target := some uW, bucket := "mybucket" }

/-- A Config whose only defect is the empty mountpoint. -/
def cfgNoMountpoint : Config :=
  { Config.zero with target := some uW, bucket := "mybucket" }

/-- A Config whose first defect is the missing target. -/
def cfgNoTarget : Config :=
  { Config.zero with mountpoint := "/mnt/x", bucket := "mybucket" }

/-- A Config whose only defect is the empty bucket. -/
def cfgNoBucket : Config :=
  { Config.zero with mountpoint := "/mnt/x", target := some uW }

/-- Empty bucket and empty mountpoint together, target present. -/
def cfgBucketAndMountpointEmpty : Config :=
  { Config.zero with target := some uW }

/-- First URL of the two-application scenarios. -/
def urlFirst : URL := ⟨"http", "h", "/b1/p1"⟩

/-- Second URL whose path is only the root slash. -/
def urlSecondRootOnly : URL := ⟨"http", "h", "/"⟩

/-- Second URL with a bucket and a base path of its own. -/
def urlSecond : URL := ⟨"http", "h", "/b2/q"⟩

/-- On-disk credential record of the second-run witness. -/
def c3content : String := "\x7b\"accessKey\":\"A\",\"secretKey\":\"B\"\x7d"

/-- World of the second-run witness: the file exists and holds c3content,
which unmarshals to a record with empty version and token (the Go
unmarshaller leaves absent fields at their zero value); only
MINFS_SECRET_KEY is set, to C. -/
def w3 : World :=
  { mkdirErr := none, now := 7, stat := .okFile, readResult := .ok c3content
  , unmarshal := fun s => if s == c3content then .ok ⟨"", "A", "B", ""⟩ else .error "unmarshal error"
  , writeErr := none, env := ⟨"", "C", ""⟩ }

/-- World of the first-run witness: no credential file, two variables set. -/
def w2 : World :=
  { mkdirErr := none, now := 3, stat := .notExist
  , readResult := .error "unused", unmarshal := fun _ => .error "unused"
  , writeErr := none, env := ⟨"A", "B", ""⟩ }

/-- World in which stat fails with an error that is not IsNotExist. -/
def w8 : World :=
  { mkdirErr := none, now := 11, stat := .otherErr "permission denied"
  , readResult := .error "unused", unmarshal := fun _ => .error "unused"
  , writeErr := none, env := ⟨"", "", ""⟩ }

theorem strData_append (a b : String) : (a ++ b).data = a.data ++ b.data := rfl

theorem mk_data (s : String) : String.mk s.data = s := rfl

theorem splitOnSlashL_no_slash : ∀ (l : List Char), '/' ∉ l → splitOnSlashL l = [l] := by
  intro l h
  induction l with
  | nil => rfl
  | cons c cs ih =>
    have hc : c ≠ '/' := fun hh => h (hh ▸ List.mem_cons_self c cs)
    have hcs : '/' ∉ cs := fun hh => h (List.mem_cons_of_mem c hh)
    simp [splitOnSlashL, hc, ih hcs]

theorem splitOnSlashL_append :
    ∀ (a : List Char), '/' ∉ a → ∀ (b : List Char),
      splitOnSlashL (a ++ '/' :: b) = a :: splitOnSlashL b := by
  intro a
  induction a with
  | nil => intro _ b; simp [splitOnSlashL]
  | cons c cs ih =>
    intro h b
    have hc : c ≠ '/' := fun hh => h (hh ▸ List.mem_cons_self c cs)
    have hcs : '/' ∉ cs := fun hh => h (List.mem_cons_of_mem c hh)
    simp [splitOnSlashL, hc, ih hcs b]

theorem str_ne_empty_of_data {p : String} {c : Char} {cs : List Char}
    (h : p.data = c :: cs) : p ≠ "" := by
  intro hp
  rw [hp] at h
  exact absurd h (by simp [show ("" : String).data = [] from rfl])

theorem data_eq_cons_of_ne_empty {p : String} (h : p ≠ "") :
    ∃ c cs, p.data = c :: cs := by
  cases hpd : p.data with
  | nil => exact absurd (String.ext hpd) h
  | cons c cs => exact ⟨c, cs, rfl⟩

theorem goStringsJoin_pair (p1 p2 : String) :
    goStringsJoin [p1, p2] = p1 ++ "/" ++ p2 := by
  simp [goStringsJoin]

theorem goPathJoin_pair (p1 p2 : String)
    (hp1 : '/' ∉ p1.data) (h1a : p1 ≠ "") (h1b : p1 ≠ ".") (h1c : p1 ≠ "..")
    (hp2 : '/' ∉ p2.data) (h2a : p2 ≠ "") (h2b : p2 ≠ ".") (h2c : p2 ≠ "..") :
    goPathJoin [p1, p2] = p1 ++ "/" ++ p2 := by
  have hslash : ("/" : String).data = ['/'] := rfl
  obtain ⟨c, cs, hpd⟩ := data_eq_cons_of_ne_empty h1a
  have hcmem : c ∈ p1.data := hpd ▸ List.mem_cons_self c cs
  have hcne : c ≠ '/' := fun hh => hp1 (hh ▸ hcmem)
  have hdata : (p1 ++ "/" ++ p2).data = p1.data ++ '/' :: p2.data := by
    simp [strData_append, hslash]
  have hne : p1 ++ "/" ++ p2 ≠ "" := by
    intro h
    rw [h] at hdata
    have : ([] : List Char) = p1.data ++ '/' :: p2.data := hdata
    exact absurd this.symm (by simp)
  have hdw : [p1, p2].dropWhile (fun e => e == "") = [p1, p2] := by
    simp [List.dropWhile_cons, h1a]
  have hhead : (p1 ++ "/" ++ p2).data.headD ' ' = c := by
    rw [hdata, hpd]; rfl
  have hrooted : ((p1 ++ "/" ++ p2).data.headD ' ' == '/') = false := by
    rw [hhead]
    exact beq_eq_false_iff_ne.mpr hcne
  have hsplit : splitOnSlashL (p1 ++ "/" ++ p2).data = [p1.data, p2.data] := by
    rw [hdata, splitOnSlashL_append p1.data hp1, splitOnSlashL_no_slash p2.data hp2]
  have hclean : cleanSegs false [] [p1, p2] = [p1, p2] := by
    simp [cleanSegs, h1a, h1b, h1c, h2a, h2b, h2c]
  rw [goPathJoin]
  rw [hdw]
  show goPathClean (goStringsJoin [p1, p2]) = _
  rw [goStringsJoin_pair]
  rw [goPathClean, if_neg hne, hrooted]
  simp only [Bool.false_eq_true, if_false]
  rw [hsplit]
  simp only [List.map, mk_data]
  rw [hclean, goStringsJoin_pair, if_neg hne]

/-- Claim C4: for every well-formed URL whose path is /b/p1/p2, built of
three ordinary segments (slash-free, and the two base-path segments
non-empty and not the dot or dotdot segments, so that the cleaning join
keeps them verbatim), Target sets target to the parsed URL, bucket to b
and basePath to p1/p2, leaving every other field of the Config unchanged. -/
theorem target_three_segment_path (u : URL) (cfg : Config) (b p1 p2 : String)
    (hpath : u.path = "/" ++ b ++ "/" ++ p1 ++ "/" ++ p2)
    (hb : '/' ∉ b.data)
    (hp1 : '/' ∉ p1.data) (h1a : p1 ≠ "") (h1b : p1 ≠ ".") (h1c : p1 ≠ "..")
    (hp2 : '/' ∉ p2.data) (h2a : p2 ≠ "") (h2b : p2 ≠ ".") (h2c : p2 ≠ "..") :
    Target (some u) cfg
      = { cfg with target := some u, bucket := b, basePath := p1 ++ "/" ++ p2 } := by
  have hslash : ("/" : String).data = ['/'] := rfl
  have hdata : u.path.data = '/' :: (b.data ++ '/' :: (p1.data ++ '/' :: p2.data)) := by
    rw [hpath]; simp [strData_append, hslash]
  have hlen : 1 < u.path.length := by
    show 1 < u.path.data.length
    rw [hdata]; simp
  have htail : (strTail u.path).data = b.data ++ '/' :: (p1.data ++ '/' :: p2.data) := by
    show u.path.data.tail = _
    rw [hdata, List.tail_cons]
  have hsplit : splitOnSlashL (strTail u.path).data = [b.data, p1.data, p2.data] := by
    rw [htail, splitOnSlashL_append b.data hb, splitOnSlashL_append p1.data hp1,
      splitOnSlashL_no_slash p2.data hp2]
  simp only [Target, if_pos hlen, hsplit, List.map, mk_data, List.headD, List.drop]
  rw [goPathJoin_pair p1 p2 hp1 h1a h1b h1c hp2 h2a h2b h2c]

/-- Witness for C4 at the concrete URL http://h/mybucket/a/b. -/
theorem target_three_segment_path_witness :
    Target (some uW) Config.zero
      = { Config.zero with target := some uW, bucket := "mybucket", basePath := "a/b" } :=
  target_three_segment_path uW Config.zero "mybucket" "a" "b" (by decide) (by decide)
    (by decide) (by decide) (by decide) (by decide) (by decide) (by decide) (by decide)
    (by decide)

/-- Claim C1: validation succeeds exactly when mountpoint is non-empty,
target is non-nil and bucket is non-empty, and on failure the error is the
one of the first failing check in the order mountpoint, target, bucket. -/
theorem validate_success_iff_and_error_order (cfg : Config) :
    (Config.validate cfg = none
        ↔ (cfg.mountpoint ≠ "" ∧ cfg.target ≠ none ∧ cfg.bucket ≠ ""))
    ∧ (cfg.mountpoint = "" → Config.validate cfg = some "Mountpoint not set")
    ∧ (cfg.mountpoint ≠ "" → cfg.target = none →
        Config.validate cfg = some "Target not set")
    ∧ (cfg.mountpoint ≠ "" → cfg.target ≠ none → cfg.bucket = "" →
        Config.validate cfg = some "Bucket not set") := by
  by_cases hm : cfg.mountpoint = "" <;> by_cases ht : cfg.target = none <;>
    by_cases hb : cfg.bucket = "" <;> simp [Config.validate, hm, ht, hb]

/-- Witness for C1: one config per outcome. -/
theorem validate_success_iff_and_error_order_witness :
    Config.validate cfgOk = none
    ∧ Config.validate cfgNoMountpoint = some "Mountpoint not set"
    ∧ Config.validate cfgNoTarget = some "Target not set"
    ∧ Config.validate cfgNoBucket = some "Bucket not set" :=
  ⟨(validate_success_iff_and_error_order cfgOk).1.mpr (by decide),
   (validate_success_iff_and_error_order cfgNoMountpoint).2.1 (by decide),
   (validate_success_iff_and_error_order cfgNoTarget).2.2.1 (by decide) (by decide),
   (validate_success_iff_and_error_order cfgNoBucket).2.2.2 (by decide) (by decide) (by decide)⟩

/-- Counterexample to claim C5 as stated: a Config whose bucket is empty
and whose target is non-nil, yet validate does not report the bucket
error, because the empty mountpoint is checked first.  So the bucket
error is not independent of the other fields. -/
theorem validate_bucket_error_not_field_independent :
    cfgBucketAndMountpointEmpty.bucket = ""
    ∧ cfgBucketAndMountpointEmpty.target ≠ none
    ∧ ¬ (Config.validate cfgBucketAndMountpointEmpty = some "Bucket not set") := by
  decide

/-- Claim C5 as amended: validate fails with the bucket error exactly when
bucket is empty and both earlier checks pass, that is mountpoint is
non-empty and target is non-nil. -/
theorem validate_bucket_error_iff (cfg : Config) :
    Config.validate cfg = some "Bucket not set"
      ↔ (cfg.mountpoint ≠ "" ∧ cfg.target ≠ none ∧ cfg.bucket = "") := by
  have hmb : ("Mountpoint not set" : String) ≠ "Bucket not set" := by decide
  have htb : ("Target not set" : String) ≠ "Bucket not set" := by decide
  by_cases hm : cfg.mountpoint = "" <;> by_cases ht : cfg.target = none <;>
    by_cases hb : cfg.bucket = "" <;> simp [Config.validate, hm, ht, hb, hmb, htb]

/-- Witness for the amended C5 at a concrete config. -/
theorem validate_bucket_error_iff_witness :
    Config.validate cfgNoBucket = some "Bucket not set" :=
  (validate_bucket_error_iff cfgNoBucket).mpr (by decide)

/-- Counterexample to claim C6 as stated: when the second URL parses but
its path is only the root slash, the second application does not override
the bucket; the final bucket is the one of the first URL, not the one
derived from the second URL. -/
theorem target_second_short_path_keeps_first_bucket :
    ¬ ((Target (some urlSecondRootOnly) (Target (some urlFirst) Config.zero)).bucket
        = (Target (some urlSecondRootOnly) Config.zero).bucket) := by
  decide

/-- Claim C6 as amended: when the second URL parses and its path has more
than one character, the second application fully determines the result:
applying two Target options equals applying only the second, so the final
target, bucket and basePath are the ones derived from the second URL. -/
theorem target_second_application_wins (cfg : Config) (u1 u2 : URL)
    (h : 1 < u2.path.length) :
    Target (some u2) (Target (some u1) cfg) = Target (some u2) cfg := by
  by_cases h1 : 1 < u1.path.length <;> simp [Target, h, h1]

/-- Witness for the amended C6 at two concrete URLs. -/
theorem target_second_application_wins_witness :
    Target (some urlSecond) (Target (some urlFirst) Config.zero)
      = Target (some urlSecond) Config.zero :=
  target_second_application_wins Config.zero urlFirst urlSecond (by decide)

/-- Claim C7: a failed URL parse (the none outcome, the err not-nil branch
of the source) leaves every field of the Config unchanged; the option
itself has no error channel, so no error can be raised at application
time. -/
theorem target_parse_failure_noop (cfg : Config) : Target none cfg = cfg := rfl

/-- Claim C10: basePath comes from a cleaning join, not raw concatenation:
empty and dot segments are dropped, a dotdot segment collapses with the
segment before it, and a path with exactly one segment gives the empty
basePath. -/
theorem target_basepath_cleaning_examples :
    (Target (some ⟨"http", "h", "/b//p"⟩) Config.zero).basePath = "p"
    ∧ (Target (some ⟨"http", "h", "/b/./p"⟩) Config.zero).basePath = "p"
    ∧ (Target (some ⟨"http", "h", "/b/x/../p"⟩) Config.zero).basePath = "p"
    ∧ (Target (some ⟨"http", "h", "/b"⟩) Config.zero).basePath = "" := by
  decide

theorem escapeJSONChar_plain {c : Char} (h : PlainJSONChar c) :
    escapeJSONChar c = String.singleton c := by
  obtain ⟨h1, h2, h3, h4, h5, h6, h7, h8⟩ := h
  have hn : c ≠ '\n' := by intro hc; subst hc; exact absurd h1 (by decide)
  have hr : c ≠ '\r' := by intro hc; subst hc; exact absurd h1 (by decide)
  have ht : c ≠ '\t' := by intro hc; subst hc; exact absurd h1 (by decide)
  have hor : ¬(c.toNat < 32 ∨ c = '<' ∨ c = '>' ∨ c = '&') := by
    push_neg
    exact ⟨by omega, h4, h5, h6⟩
  rw [escapeJSONChar, if_neg h2, if_neg h3, if_neg hn, if_neg hr, if_neg ht,
    if_neg hor, if_neg h7, if_neg h8]

theorem escapeData_plain :
    ∀ (l : List Char), (∀ c ∈ l, PlainJSONChar c) → escapeData l = l := by
  intro l h
  induction l with
  | nil => rfl
  | cons c cs ih =>
    have hc := h c (List.mem_cons_self c cs)
    have hcs : ∀ x ∈ cs, PlainJSONChar x := fun x hx => h x (List.mem_cons_of_mem c hx)
    simp [escapeData, escapeJSONChar_plain hc, ih hcs, String.singleton]

theorem jsonQuote_plain {s : String} (h : ∀ c ∈ s.data, PlainJSONChar c) :
    jsonQuote s = "\"" ++ s ++ "\"" := by
  have hq : ("\"" : String).data = ['"'] := rfl
  apply String.ext
  show '"' :: (escapeData s.data ++ ['"']) = _
  rw [escapeData_plain s.data h]
  simp [strData_append, hq]

theorem marshalAccessConfig_plain (A B : String)
    (hA : ∀ c ∈ A.data, PlainJSONChar c) (hB : ∀ c ∈ B.data, PlainJSONChar c) :
    marshalAccessConfig ⟨"1", A, B, ""⟩
      = "\x7b\"version\":\"1\",\"accessKey\":\"" ++ A
          ++ "\",\"secretKey\":\"" ++ B ++ "\",\"secretToken\":\"\"\x7d" := by
  have hq1 : jsonQuote "1" = "\"1\"" := by decide
  have hq0 : jsonQuote "" = "\"\"" := by decide
  have d1 : ("\x7b\"version\":\"1\",\"accessKey\":\"" : String).data
      = ("\x7b\"version\":" : String).data ++ ("\"1\"" : String).data
        ++ (",\"accessKey\":" : String).data ++ ("\"" : String).data := by decide
  have d2 : ("\",\"secretKey\":\"" : String).data
      = ("\"" : String).data ++ (",\"secretKey\":" : String).data
        ++ ("\"" : String).data := by decide
  have d3 : ("\",\"secretToken\":\"\"\x7d" : String).data
      = ("\"" : String).data ++ (",\"secretToken\":" : String).data
        ++ ("\"\"" : String).data ++ ("\x7d" : String).data := by decide
  rw [marshalAccessConfig]
  show ("\x7b\"version\":" ++ jsonQuote "1" ++ ",\"accessKey\":" ++ jsonQuote A
      ++ ",\"secretKey\":" ++ jsonQuote B ++ ",\"secretToken\":" ++ jsonQuote "" ++ "\x7d") = _
  rw [hq1, hq0, jsonQuote_plain hA, jsonQuote_plain hB]
  apply String.ext
  simp [strData_append, d1, d2, d3]

/-- Claim C2: first bootstrap run.  No credential file exists, the access
key variable holds A, the secret key variable holds B, the token variable
is unset (os.Getenv gives the empty string); the run writes exactly the
JSON object with version 1, accessKey A, secretKey B and empty
secretToken, and returns exactly that record.  A and B are assumed to be
made of characters the JSON encoder emits unchanged, which is what makes
the literal shape of the claim exact. -/
theorem init_first_run_writes_credentials (A B : String)
    (hA : ∀ c ∈ A.data, PlainJSONChar c) (hB : ∀ c ∈ B.data, PlainJSONChar c)
    (w : World) (hmk : w.mkdirErr = none) (hst : w.stat = .notExist)
    (hw : w.writeErr = none) (henv : w.env = ⟨A, B, ""⟩) :
    (InitMinFSConfig w).written
        = some ("\x7b\"version\":\"1\",\"accessKey\":\"" ++ A
            ++ "\",\"secretKey\":\"" ++ B ++ "\",\"secretToken\":\"\"\x7d")
    ∧ (InitMinFSConfig w).result = .ok ⟨"1", A, B, ""⟩ := by
  constructor
  · simp [InitMinFSConfig, hmk, hst, hw, henv, marshalAccessConfig_plain A B hA hB]
  · simp [InitMinFSConfig, hmk, hst, hw, henv]

/-- Witness for C2 at A and B the one-letter values of the spec example. -/
theorem init_first_run_writes_credentials_witness :
    (InitMinFSConfig w2).written
        = some "\x7b\"version\":\"1\",\"accessKey\":\"A\",\"secretKey\":\"B\",\"secretToken\":\"\"\x7d"
    ∧ (InitMinFSConfig w2).result = .ok ⟨"1", "A", "B", ""⟩ := by
  have h := init_first_run_writes_credentials "A" "B" (by decide) (by decide) w2
    rfl rfl rfl rfl
  exact ⟨by rw [h.1]; rfl, h.2⟩

/-- Claim C3: second bootstrap run.  The credential file exists, reads and
unmarshals to the record r; each of the three key fields of the returned
record is the environment value when that variable is non-empty and the
on-disk value otherwise, and nothing is written back to the file. -/
theorem init_existing_env_override (w : World) (r : AccessConfig) (content : String)
    (hmk : w.mkdirErr = none) (hst : w.stat = .okFile)
    (hread : w.readResult = .ok content) (hun : w.unmarshal content = .ok r) :
    (InitMinFSConfig w).result
        = .ok ⟨r.version,
            if w.env.minfsAccessKey ≠ "" then w.env.minfsAccessKey else r.accessKey,
            if w.env.minfsSecretKey ≠ "" then w.env.minfsSecretKey else r.secretKey,
            if w.env.minfsSecretToken ≠ "" then w.env.minfsSecretToken else r.secretToken⟩
    ∧ (InitMinFSConfig w).written = none := by
  by_cases h1 : w.env.minfsAccessKey = "" <;> by_cases h2 : w.env.minfsSecretKey = "" <;>
    by_cases h3 : w.env.minfsSecretToken = "" <;>
      simp [InitMinFSConfig, hmk, hst, hread, hun, h1, h2, h3]

/-- Witness for C3 at the spec example: on-disk accessKey A and secretKey
B, only the secret key variable set, to C: the returned record keeps A and
takes C, and the file is not rewritten. -/
theorem init_existing_env_override_witness :
    (InitMinFSConfig w3).result = .ok ⟨"", "A", "C", ""⟩
    ∧ (InitMinFSConfig w3).written = none := by
  have h := init_existing_env_override w3 ⟨"", "A", "B", ""⟩ c3content rfl rfl rfl rfl
  refine ⟨?_, h.2⟩
  rw [h.1]
  simp [w3]

/-- Claim C8: when stat fails with an error that is not IsNotExist, the
run returns that error at once: nothing is written, the file is not read,
and no record is returned. -/
theorem init_stat_error_propagates (w : World) (e : String)
    (hmk : w.mkdirErr = none) (hst : w.stat = .otherErr e) :
    (InitMinFSConfig w).result = .error e
    ∧ (InitMinFSConfig w).written = none
    ∧ (InitMinFSConfig w).didRead = false := by
  simp [InitMinFSConfig, hmk, hst]

/-- Witness for C8 at a permission-denied stat error. -/
theorem init_stat_error_propagates_witness :
    (InitMinFSConfig w8).result = .error "permission denied"
    ∧ (InitMinFSConfig w8).written = none
    ∧ (InitMinFSConfig w8).didRead = false :=
  init_stat_error_propagates w8 "permission denied" rfl rfl

/-- Claim C9: whenever directory creation succeeds the run assigns the
current time to MountTime, whatever happens afterwards; in particular the
assignment also happens on runs that return an error from the stat, read,
unmarshal or write step. -/
theorem init_mount_time_set_after_mkdir (w : World) (hmk : w.mkdirErr = none) :
    (InitMinFSConfig w).mountTime = some w.now := by
  cases hst : w.stat with
  | okFile =>
    cases hr : w.readResult with
    | error e => simp [InitMinFSConfig, hmk, hst, hr]
    | ok s =>
      cases hu : w.unmarshal s with
      | error e => simp [InitMinFSConfig, hmk, hst, hr, hu]
      | ok ac => simp [InitMinFSConfig, hmk, hst, hr, hu]
  | notExist =>
    cases hw : w.writeErr with
    | none => simp [InitMinFSConfig, hmk, hst, hw]
    | some e => simp [InitMinFSConfig, hmk, hst, hw]
  | otherErr e => simp [InitMinFSConfig, hmk, hst]

/-- Witness for C9 on a failing run: the stat error aborts the run, yet
MountTime was already assigned. -/
theorem init_mount_time_set_after_mkdir_witness :
    (InitMinFSConfig w8).mountTime = some 11
    ∧ (InitMinFSConfig w8).result = .error "permission denied" :=
  ⟨init_mount_time_set_after_mkdir w8 rfl, rfl⟩
